import Mathlib

/-
  Verification development for blender_import_magnetic_field.py
  (journalofexpresearch/artmag).

  Shallow embedding conventions:
  * Python floats are idealized as real numbers; mathutils.Vector becomes
    the Vec3 structure below, with length, length_squared and normalized
    translated from mathutils semantics (a zero-length vector normalizes
    to the zero vector, without raising).
  * The Python dicts used as records (position/field/magnitude samples,
    source descriptors, parsed JSON documents, CSV rows) become structures.
  * File parsing itself is the Python standard library (json.load,
    csv.DictReader); the loaders below start from the already-parsed
    document, exactly as the code of the script does after those calls.
  * Host-application scene-graph state (bpy) is abstracted to the list of
    object names in the scene: clear_scene deletes every object, and the
    visualization builders link new collections.  No claim inspects the
    scene contents after a successful visualization, only whether and when
    the scene is mutated.
  * The module-level configuration read by main (FILE_PATH,
    VISUALIZATION_MODE) is passed as parameters, and raising an exception
    (Python ValueError from max() on an empty sequence) is modeled as an
    explicit outcome constructor.
-/

set_option autoImplicit false

noncomputable section

/-- mathutils.Vector with three components, idealized over the reals. -/
structure Vec3 where
  x : ℝ
  y : ℝ
  z : ℝ

instance : Add Vec3 := ⟨fun a b => ⟨a.x + b.x, a.y + b.y, a.z + b.z⟩⟩

instance : Sub Vec3 := ⟨fun a b => ⟨a.x - b.x, a.y - b.y, a.z - b.z⟩⟩

/-- Vector times scalar, as used in the step
current_pos += direction * step_size. -/
instance : HMul Vec3 ℝ Vec3 := ⟨fun v c => ⟨v.x * c, v.y * c, v.z * c⟩⟩

namespace Vec3

/-- mathutils Vector.length_squared: the dot product of the vector with
itself. -/
def length_squared (v : Vec3) : ℝ := v.x * v.x + v.y * v.y + v.z * v.z

/-- mathutils Vector.length. -/
def length (v : Vec3) : ℝ := Real.sqrt v.length_squared

/-- mathutils Vector.normalized(): divides each component by the length;
a zero-length vector normalizes to the zero vector (mathutils guards this
case instead of raising). -/
def normalized (v : Vec3) : Vec3 :=
  if v.length = 0 then ⟨0, 0, 0⟩ else ⟨v.x / v.length, v.y / v.length, v.z / v.length⟩

end Vec3

/-- One field sample: the position/field/magnitude dict built by the
loaders. -/
structure Sample where
  position : Vec3
  field : Vec3
  magnitude : ℝ

/-- One source descriptor: the position/radius/current dict built by the
JSON loader. -/
structure Source where
  position : Vec3
  radius : ℝ
  current : ℝ

/-- The position/magnitude dicts appended by trace_field_line; the start
entry of the returned list is projected to the same two keys (the claims
only inspect positions, magnitudes and lengths). -/
structure TracePoint where
  position : Vec3
  magnitude : ℝ

/-- RGBA tuples as returned by the color mappers. -/
def Color := ℝ × ℝ × ℝ × ℝ

/-- The opaque metadata map carried through by the JSON loader (never
inspected by the core logic; a plain association list stands in for the
parsed JSON object). -/
def Metadata := List (String × String)

/-- An x/y/z object inside the parsed JSON document. -/
structure JVec where
  x : ℝ
  y : ℝ
  z : ℝ

/-- One entry of the field list of the JSON document. -/
structure JsonFieldEntry where
  position : JVec
  field : JVec
  magnitude : ℝ

/-- One entry of the optional sources list of the JSON document: the
altitude under position is required, radius and current are read with
dict get and a default. -/
structure JsonSource where
  alt : ℝ
  radius : Option ℝ
  current : Option ℝ

/-- The parsed JSON document (json.load result): required key field,
optional keys sources and metadata. -/
structure JsonDoc where
  field : List JsonFieldEntry
  sources : Option (List JsonSource)
  metadata : Option Metadata

/-- One parsed CSV row with the required columns. -/
structure CsvRow where
  x : ℝ
  y : ℝ
  z : ℝ
  Bx : ℝ
  By : ℝ
  Bz : ℝ
  magnitude : ℝ

/-- load_field_data_json, starting from the parsed document: builds one
sample per field entry in file order, maps the position of each source to
(0, 0, alt) with radius defaulting to 0.01 and current to 0, and passes
metadata through with the empty map as default. -/
def load_field_data_json (data : JsonDoc) : List Sample × List Source × Metadata :=
  let field_points := data.field.map fun point =>
    { position := ⟨point.position.x, point.position.y, point.position.z⟩
      field := ⟨point.field.x, point.field.y, point.field.z⟩
      magnitude := point.magnitude : Sample }
  let sources := match data.sources with
    | none => []
    | some srcs => srcs.map fun source =>
        { position := ⟨0, 0, source.alt⟩
          radius := source.radius.getD 0.01
          current := source.current.getD 0 : Source }
  (field_points, sources, data.metadata.getD [])

/-- load_field_data_csv, starting from the parsed rows: one sample per
row, no sources, empty metadata. -/
def load_field_data_csv (rows : List CsvRow) : List Sample × List Source × Metadata :=
  (rows.map fun row =>
    { position := ⟨row.x, row.y, row.z⟩
      field := ⟨row.Bx, row.By, row.Bz⟩
      magnitude := row.magnitude : Sample }, [], [])

/-- colorsys.hsv_to_rgb from the Python standard library (used by
magnitude_to_color).  Python int() truncates toward zero; every call site
in this script has h * 6 nonnegative (the hue is (1 - t) * 0.666 with
t at most 1), where truncation coincides with the floor.  The final branch
(i = 5) is written as the else of the chain; i % 6 lands in 0..5, so no
case is lost. -/
def hsv_to_rgb (h s v : ℝ) : ℝ × ℝ × ℝ :=
  if s = 0 then (v, v, v)
  else
    let i0 : ℤ := ⌊h * 6⌋
    let f : ℝ := h * 6 - (i0 : ℝ)
    let p := v * (1 - s)
    let q := v * (1 - s * f)
    let t := v * (1 - s * (1 - f))
    let i := i0 % 6
    if i = 0 then (v, t, p)
    else if i = 1 then (q, v, p)
    else if i = 2 then (p, v, t)
    else if i = 3 then (p, q, v)
    else if i = 4 then (t, p, v)
    else (v, p, q)

/-- magnitude_to_color: neutral gray when max_magnitude == 0, otherwise a
clamped linear ramp mapped onto the hue sweep (1 - t) * 0.666 at full
saturation and value, returned opaque. -/
def magnitude_to_color (magnitude max_magnitude : ℝ) : Color :=
  if max_magnitude = 0 then (0.5, 0.5, 0.5, 1.0)
  else
    let t := min 1.0 (magnitude / max_magnitude)
    let hue := (1.0 - t) * 0.666
    let rgb := hsv_to_rgb hue 1.0 1.0
    (rgb.1, rgb.2.1, rgb.2.2, 1.0)

/-- direction_to_color: normalizes the vector and maps each component from
the range -1..1 to the range 0..1, returned opaque. -/
def direction_to_color (field_vector : Vec3) : Color :=
  let norm := field_vector.normalized
  ((norm.x + 1) / 2, (norm.y + 1) / 2, (norm.z + 1) / 2, 1.0)

/-- The loop of interpolate_field: nearest = None together with
min_dist = inf is one accumulator (none exactly while no point has been
scanned — every finite squared distance is below inf, so the first point
always becomes the running nearest; distances are real numbers here, never
infinite). -/
def interpLoop (position : Vec3) : List Sample → Option (Sample × ℝ) → Option (Sample × ℝ)
  | [], best => best
  | point :: rest, best =>
    let dist := (point.position - position).length_squared
    match best with
    | none => interpLoop position rest (some (point, dist))
    | some (nearest, min_dist) =>
      if dist < min_dist then interpLoop position rest (some (point, dist))
      else interpLoop position rest (some (nearest, min_dist))

/-- interpolate_field: exhaustive nearest-sample scan by squared Euclidean
distance, none on an empty list. -/
def interpolate_field (field_points : List Sample) (position : Vec3) : Option Sample :=
  (interpLoop position field_points none).map Prod.fst

/-- The bounded for-loop of trace_field_line, returning the list of
appended points.  Each iteration samples the field at the current
position, stops on none or on a magnitude below max_magnitude * 1e-6,
advances by step_size = 0.05 along the normalized field direction, stops
if any coordinate of the new position exceeds 2 in absolute value, and
otherwise appends the new position with the sampled magnitude. -/
def traceLoop (field_points : List Sample) (max_magnitude : ℝ) :
    Vec3 → ℕ → List TracePoint
  | _, 0 => []
  | current_pos, n + 1 =>
    match interpolate_field field_points current_pos with
    | none => []
    | some field =>
      if field.magnitude < max_magnitude * 1e-6 then []
      else
        let direction := field.field.normalized
        let new_pos := current_pos + direction * (0.05 : ℝ)
        if 2 < |new_pos.x| ∨ 2 < |new_pos.y| ∨ 2 < |new_pos.z| then []
        else ⟨new_pos, field.magnitude⟩ :: traceLoop field_points max_magnitude new_pos n

/-- trace_field_line: the start point followed by the appended points of
the loop (the first element of the Python list is the full start dict; the
embedding keeps its position and magnitude, the only keys any claim
reads). -/
def trace_field_line (field_points : List Sample) (start_point : Sample)
    (max_magnitude : ℝ) (max_steps : ℕ) : List TracePoint :=
  ⟨start_point.position, start_point.magnitude⟩ ::
    traceLoop field_points max_magnitude start_point.position max_steps

/-- Python str.endswith: a suffix test on the character sequence (the
embedding of the FILE_PATH.endswith calls in main). -/
def endswith (s suffix : String) : Bool := suffix.data.isSuffixOf s.data

/-- The host scene, abstracted to the names of the objects it contains. -/
structure Scene where
  objects : List String

/-- clear_scene: select all objects and delete them. -/
def clear_scene (_scene : Scene) : Scene := ⟨[]⟩

/-- visualize_arrows: scene-graph effect abstracted to linking the new
collection (geometry construction is host-API glue no claim inspects). -/
def visualize_arrows (_field_points : List Sample) (_max_magnitude : ℝ)
    (scene : Scene) : Scene :=
  ⟨scene.objects ++ ["Magnetic Field Arrows"]⟩

/-- visualize_curves: scene-graph effect abstracted to linking the new
collection. -/
def visualize_curves (_field_points : List Sample) (_max_magnitude : ℝ)
    (scene : Scene) : Scene :=
  ⟨scene.objects ++ ["Magnetic Field Lines"]⟩

/-- create_sources: links a collection of torus objects when sources are
present (and SHOW_SOURCES is left at its default True). -/
def create_sources (sources : List Source) (scene : Scene) : Scene :=
  if sources.isEmpty then scene else ⟨scene.objects ++ ["Field Sources"]⟩

/-- setup_scene: adds a camera and a sun light. -/
def setup_scene (scene : Scene) : Scene :=
  ⟨scene.objects ++ ["Camera", "Sun"]⟩

/-- How one run of main ends. -/
inductive MainResult where
  /-- The run printed that the file must be .json or .csv and returned. -/
  | softAbortBadExtension
  /-- max() over the magnitudes raised ValueError on an empty sequence;
  the exception propagates out of main. -/
  | raisedValueError
  /-- The run printed the unknown-visualization-mode message and
  returned. -/
  | softAbortUnknownMode
  /-- The run reached the final import-complete message. -/
  | completed
  deriving DecidableEq

/-- The part of main after a successful load: computes the maximum
magnitude (raising on an empty sample list), then dispatches on the
visualization mode — arrows, curves, or the unknown-mode soft abort — and
on success builds sources and sets up the scene.  Returns the final scene,
the loaded samples (none when no load happened), and the outcome. -/
def mainLoaded (visualization_mode : String)
    (loaded : List Sample × List Source × Metadata) (scene : Scene) :
    Scene × Option (List Sample) × MainResult :=
  let field_points := loaded.1
  let sources := loaded.2.1
  match field_points with
  | [] => (scene, some [], .raisedValueError)
  | p :: rest =>
    let max_magnitude := rest.foldl (fun m q => max m q.magnitude) p.magnitude
    if visualization_mode = "arrows" then
      let scene := visualize_arrows (p :: rest) max_magnitude scene
      (setup_scene (create_sources sources scene), some (p :: rest), .completed)
    else if visualization_mode = "curves" then
      let scene := visualize_curves (p :: rest) max_magnitude scene
      (setup_scene (create_sources sources scene), some (p :: rest), .completed)
    else (scene, some (p :: rest), .softAbortUnknownMode)

/-- main: clears the scene first, then dispatches on the file extension
(.json, .csv, or the bad-extension soft abort) and continues with
mainLoaded.  json_data and csv_rows stand for what the file at file_path
parses to under each reader. -/
def main (file_path visualization_mode : String) (json_data : JsonDoc)
    (csv_rows : List CsvRow) (scene : Scene) :
    Scene × Option (List Sample) × MainResult :=
  let scene := clear_scene scene
  if endswith file_path ".json" then
    mainLoaded visualization_mode (load_field_data_json json_data) scene
  else if endswith file_path ".csv" then
    mainLoaded visualization_mode (load_field_data_csv csv_rows) scene
  else
    (scene, none, .softAbortBadExtension)

end

/- ===== Helper lemmas ===== -/

@[simp] theorem Vec3.add_def (a b : Vec3) :
    a + b = ⟨a.x + b.x, a.y + b.y, a.z + b.z⟩ := rfl

@[simp] theorem Vec3.sub_def (a b : Vec3) :
    a - b = ⟨a.x - b.x, a.y - b.y, a.z - b.z⟩ := rfl

@[simp] theorem Vec3.hmul_def (v : Vec3) (c : ℝ) :
    v * c = ⟨v.x * c, v.y * c, v.z * c⟩ := rfl

/-- Invariant of the scan loop of interpolate_field, from a best pair
whose recorded distance is the squared distance of its sample: the loop
returns a pair whose distance is the squared distance of its sample and
which is either the unchanged start of the scan (then no scanned point is
strictly closer) or a point of the scanned list that is strictly closer
than the start and than everything scanned before it, and at least as
close as everything scanned after it. -/
theorem interpLoop_invariant (position : Vec3) :
    ∀ (l : List Sample) (b : Sample) (m : ℝ),
      m = (b.position - position).length_squared →
      ∃ r mr, interpLoop position l (some (b, m)) = some (r, mr) ∧
        mr = (r.position - position).length_squared ∧
        ((r = b ∧ mr = m ∧
          ∀ t ∈ l, mr ≤ (t.position - position).length_squared) ∨
         (∃ l1 l2, l = l1 ++ r :: l2 ∧ mr < m ∧
          (∀ t ∈ l1, mr < (t.position - position).length_squared) ∧
          (∀ t ∈ l2, mr ≤ (t.position - position).length_squared))) := by
  intro l
  induction l with
  | nil =>
    intro b m hm
    exact ⟨b, m, rfl, hm, Or.inl ⟨rfl, rfl, by simp⟩⟩
  | cons p rest ih =>
    intro b m hm
    by_cases hd : (p.position - position).length_squared < m
    · obtain ⟨r, mr, hr, hmr, hcase⟩ := ih p _ rfl
      refine ⟨r, mr, ?_, hmr, ?_⟩
      · simp only [interpLoop]
        rw [if_pos hd]
        exact hr
      · rcases hcase with ⟨hrb, hmrm, hall⟩ | ⟨l1, l2, hsplit, hlt, hl1, hl2⟩
        · subst hrb
          refine Or.inr ⟨[], rest, by simp, ?_, by simp, hall⟩
          rw [hmrm]; exact hd
        · refine Or.inr ⟨p :: l1, l2, by simp [hsplit], lt_trans hlt hd, ?_, hl2⟩
          intro t ht
          rcases List.mem_cons.mp ht with h | h
          · subst h; exact hlt
          · exact hl1 t h
    · obtain ⟨r, mr, hr, hmr, hcase⟩ := ih b m hm
      refine ⟨r, mr, ?_, hmr, ?_⟩
      · simp only [interpLoop]
        rw [if_neg hd]
        exact hr
      · rcases hcase with ⟨hrb, hmrm, hall⟩ | ⟨l1, l2, hsplit, hlt, hl1, hl2⟩
        · refine Or.inl ⟨hrb, hmrm, ?_⟩
          intro t ht
          rcases List.mem_cons.mp ht with h | h
          · subst h; rw [hmrm]; exact not_lt.mp hd
          · exact hall t h
        · refine Or.inr ⟨p :: l1, l2, by simp [hsplit], hlt, ?_, hl2⟩
          intro t ht
          rcases List.mem_cons.mp ht with h | h
          · subst h; exact lt_of_lt_of_le hlt (not_lt.mp hd)
          · exact hl1 t h

/-- The loop of trace_field_line appends at most one point per iteration. -/
theorem traceLoop_length_le (field_points : List Sample) (max_magnitude : ℝ) :
    ∀ (n : ℕ) (pos : Vec3),
      (traceLoop field_points max_magnitude pos n).length ≤ n := by
  intro n
  induction n with
  | zero => intro pos; simp [traceLoop]
  | succ k ih =>
    intro pos
    simp only [traceLoop]
    split
    · simp
    · split_ifs with h1 h2
      · simp
      · simp
      · simpa using Nat.succ_le_succ (ih _)

/-- Every point appended by the loop of trace_field_line passed the bound
check: all its coordinates are at most 2 in absolute value. -/
theorem traceLoop_in_bounds (field_points : List Sample) (max_magnitude : ℝ) :
    ∀ (n : ℕ) (pos : Vec3),
      ∀ p ∈ traceLoop field_points max_magnitude pos n,
        |p.position.x| ≤ 2 ∧ |p.position.y| ≤ 2 ∧ |p.position.z| ≤ 2 := by
  intro n
  induction n with
  | zero => intro pos p hp; simp [traceLoop] at hp
  | succ k ih =>
    intro pos p hp
    simp only [traceLoop] at hp
    split at hp
    · simp at hp
    · split_ifs at hp with h1 h2
      · simp at hp
      · simp at hp
      · push_neg at h2
        rcases List.mem_cons.mp hp with hh | hh
        · rw [hh]; exact ⟨h2.1, h2.2.1, h2.2.2⟩
        · exact ih _ p hh

/-- Concrete evaluation of one trace step: two samples share the start
position, the first (magnitude 1, field along x) wins the nearest-sample
scan, so the trace started at the second (magnitude 0) still advances one
step of 0.05 along x. -/
theorem traceDemoEval :
    trace_field_line
      [⟨⟨0, 0, 0⟩, ⟨1, 0, 0⟩, 1⟩, ⟨⟨0, 0, 0⟩, ⟨0, 0, 0⟩, 0⟩]
      ⟨⟨0, 0, 0⟩, ⟨0, 0, 0⟩, 0⟩ 1 1 =
      [⟨⟨0, 0, 0⟩, 0⟩, ⟨⟨0.05, 0, 0⟩, 1⟩] := by
  have hi : interpolate_field
      [⟨⟨0, 0, 0⟩, ⟨1, 0, 0⟩, 1⟩, ⟨⟨0, 0, 0⟩, ⟨0, 0, 0⟩, 0⟩] ⟨0, 0, 0⟩ =
      some ⟨⟨0, 0, 0⟩, ⟨1, 0, 0⟩, 1⟩ := by
    simp only [interpolate_field, interpLoop, Vec3.sub_def, Vec3.length_squared]
    norm_num
  have hn : Vec3.normalized ⟨1, 0, 0⟩ = ⟨1, 0, 0⟩ := by
    simp [Vec3.normalized, Vec3.length, Vec3.length_squared]
  simp only [trace_field_line, traceLoop, hi]
  rw [if_neg (by norm_num : ¬(1 : ℝ) < 1 * 1e-6)]
  simp only [hn, Vec3.add_def, Vec3.hmul_def]
  norm_num [abs_le]

/- ===== Claims ===== -/

/-- Claim C1 (code bug, evaluated at the failing input): with a valid
.json dataset loaded and the configured visualization mode set to
particles, main treats particles as an unrecognized mode and soft-aborts
(the dispatch handles only arrows and curves), even though the module
docstring and the configuration comment list particles as one of the three
supported styles. -/
theorem main_particles_mode_soft_aborts :
    (main "export.json" "particles"
      ⟨[⟨⟨0, 0, 0⟩, ⟨1, 0, 0⟩, 1⟩], none, none⟩ [] ⟨["Cube"]⟩).2.1 =
      some [⟨⟨0, 0, 0⟩, ⟨1, 0, 0⟩, 1⟩] ∧
    (main "export.json" "particles"
      ⟨[⟨⟨0, 0, 0⟩, ⟨1, 0, 0⟩, 1⟩], none, none⟩ [] ⟨["Cube"]⟩).2.2 =
      MainResult.softAbortUnknownMode := by
  have hj : endswith "export.json" ".json" = true := by decide
  constructor <;>
    simp [main, hj, clear_scene, mainLoaded, load_field_data_json]

/-- Claim C2 counterexample: on the file path export.txt (extension
neither .json nor .csv) the run does soft-abort and loads no samples, but
the host scene is not unchanged — clear_scene already ran before the
extension check, so a scene holding one object comes back empty. -/
theorem main_txt_clears_scene :
    (main "export.txt" "arrows" ⟨[], none, none⟩ [] ⟨["Cube"]⟩).2.2 =
      MainResult.softAbortBadExtension ∧
    (main "export.txt" "arrows" ⟨[], none, none⟩ [] ⟨["Cube"]⟩).2.1 = none ∧
    (main "export.txt" "arrows" ⟨[], none, none⟩ [] ⟨["Cube"]⟩).1 ≠ ⟨["Cube"]⟩ := by
  have h1 : endswith "export.txt" ".json" = false := by decide
  have h2 : endswith "export.txt" ".csv" = false := by decide
  refine ⟨?_, ?_, ?_⟩ <;> simp [main, h1, h2, clear_scene]

/-- Claim C2 (amended): for every input file path whose extension is
neither .json nor .csv, the run soft-aborts — it returns without raising
and loads no samples — but the scene has already been mutated: clear_scene
runs before the extension check, so the run ends with the scene cleared of
all objects. -/
theorem main_bad_extension_soft_abort (file_path mode : String)
    (doc : JsonDoc) (rows : List CsvRow) (scene : Scene)
    (h1 : endswith file_path ".json" = false)
    (h2 : endswith file_path ".csv" = false) :
    main file_path mode doc rows scene =
      (⟨[]⟩, none, MainResult.softAbortBadExtension) := by
  simp [main, h1, h2, clear_scene]

/-- Witness for the amended claim C2 at the concrete path export.txt. -/
theorem main_bad_extension_soft_abort_witness :
    endswith "export.txt" ".json" = false ∧
    endswith "export.txt" ".csv" = false ∧
    main "export.txt" "arrows" ⟨[], none, none⟩ [] ⟨["Cube"]⟩ =
      (⟨[]⟩, none, MainResult.softAbortBadExtension) :=
  ⟨by decide, by decide,
    main_bad_extension_soft_abort "export.txt" "arrows" ⟨[], none, none⟩ []
      ⟨["Cube"]⟩ (by decide) (by decide)⟩

/-- Claim C3 counterexample: on a .json dataset whose field list is empty
the run does not report any dedicated empty-dataset error — it evaluates
max() over the empty magnitude sequence and the resulting ValueError
propagates (the outcome type of the embedding mirrors the code, which has
no empty-dataset guard at all). -/
theorem main_empty_dataset_no_guard :
    (main "export.json" "arrows" ⟨[], none, none⟩ [] ⟨[]⟩).2.2 =
      MainResult.raisedValueError := by
  have hj : endswith "export.json" ".json" = true := by decide
  simp [main, hj, clear_scene, mainLoaded, load_field_data_json]

/-- Claim C3 (amended): for a .json dataset that loads with zero samples,
the maximum-magnitude computation is not guarded: max() raises ValueError
on the empty sequence, a hard failure, and no dedicated empty-dataset
error is reported. -/
theorem main_empty_dataset_value_error (file_path mode : String)
    (doc : JsonDoc) (rows : List CsvRow) (scene : Scene)
    (hj : endswith file_path ".json" = true) (hf : doc.field = []) :
    main file_path mode doc rows scene =
      (⟨[]⟩, some [], MainResult.raisedValueError) := by
  simp [main, hj, clear_scene, mainLoaded, load_field_data_json, hf]

/-- Witness for the amended claim C3 at a concrete empty document. -/
theorem main_empty_dataset_value_error_witness :
    endswith "export.json" ".json" = true ∧
    main "export.json" "arrows" ⟨[], none, none⟩ [] ⟨["Cube"]⟩ =
      (⟨[]⟩, some [], MainResult.raisedValueError) :=
  ⟨by decide,
    main_empty_dataset_value_error "export.json" "arrows" ⟨[], none, none⟩ []
      ⟨["Cube"]⟩ (by decide) rfl⟩

/-- Claim C4: on the empty sample list interpolate_field returns none; on
every non-empty sample list it returns a sample of the list whose squared
Euclidean distance to the query position is at most that of every other
sample, and that sample is the first minimum in scan order: the list
splits around it with every earlier sample strictly farther away. -/
theorem interpolate_field_nearest_first (samples : List Sample)
    (position : Vec3) (h : samples ≠ []) :
    (∀ q, interpolate_field [] q = none) ∧
    ∃ s l1 l2, interpolate_field samples position = some s ∧
      samples = l1 ++ s :: l2 ∧
      (∀ t ∈ samples, (s.position - position).length_squared ≤
        (t.position - position).length_squared) ∧
      (∀ t ∈ l1, (s.position - position).length_squared <
        (t.position - position).length_squared) := by
  refine ⟨fun q => rfl, ?_⟩
  obtain ⟨p, rest, rfl⟩ := List.exists_cons_of_ne_nil h
  obtain ⟨r, mr, hr, hmr, hcase⟩ := interpLoop_invariant position rest p _ rfl
  have hinterp : interpolate_field (p :: rest) position = some r := by
    simp only [interpolate_field, interpLoop]
    rw [hr]
    rfl
  rcases hcase with ⟨hrb, hmrm, hall⟩ | ⟨l1, l2, hsplit, hlt, hl1, hl2⟩
  · refine ⟨r, [], rest, hinterp, by simp [hrb], ?_, by simp⟩
    intro t ht
    rw [← hmr]
    rcases List.mem_cons.mp ht with hh | hh
    · rw [hh, ← hrb, ← hmr]
    · exact hall t hh
  · refine ⟨r, p :: l1, l2, hinterp, by simp [hsplit], ?_, ?_⟩
    · intro t ht
      rw [← hmr]
      rcases List.mem_cons.mp ht with hh | hh
      · rw [hh]; exact le_of_lt hlt
      · rw [hsplit] at hh
        rcases List.mem_append.mp hh with hh2 | hh2
        · exact le_of_lt (hl1 t hh2)
        · rcases List.mem_cons.mp hh2 with hh3 | hh3
          · rw [hh3, ← hmr]
          · exact hl2 t hh3
    · intro t ht
      rw [← hmr]
      rcases List.mem_cons.mp ht with hh | hh
      · rw [hh]; exact hlt
      · exact hl1 t hh

/-- Witness for claim C4 at the two-sample scenario of the specification
(query position 0.1 along x, nearest is the first sample). -/
theorem interpolate_field_nearest_first_witness :
    ([⟨⟨0, 0, 0⟩, ⟨1, 0, 0⟩, 1⟩, ⟨⟨1, 0, 0⟩, ⟨0, 1, 0⟩, 2⟩] : List Sample) ≠ [] ∧
    ((∀ q, interpolate_field [] q = none) ∧
     ∃ s l1 l2, interpolate_field
        [⟨⟨0, 0, 0⟩, ⟨1, 0, 0⟩, 1⟩, ⟨⟨1, 0, 0⟩, ⟨0, 1, 0⟩, 2⟩]
        ⟨0.1, 0, 0⟩ = some s ∧
      ([⟨⟨0, 0, 0⟩, ⟨1, 0, 0⟩, 1⟩, ⟨⟨1, 0, 0⟩, ⟨0, 1, 0⟩, 2⟩] : List Sample) =
        l1 ++ s :: l2 ∧
      (∀ t ∈ ([⟨⟨0, 0, 0⟩, ⟨1, 0, 0⟩, 1⟩, ⟨⟨1, 0, 0⟩, ⟨0, 1, 0⟩, 2⟩] : List Sample),
        (s.position - (⟨0.1, 0, 0⟩ : Vec3)).length_squared ≤
          (t.position - (⟨0.1, 0, 0⟩ : Vec3)).length_squared) ∧
      (∀ t ∈ l1, (s.position - (⟨0.1, 0, 0⟩ : Vec3)).length_squared <
        (t.position - (⟨0.1, 0, 0⟩ : Vec3)).length_squared)) :=
  ⟨by simp,
    interpolate_field_nearest_first
      [⟨⟨0, 0, 0⟩, ⟨1, 0, 0⟩, 1⟩, ⟨⟨1, 0, 0⟩, ⟨0, 1, 0⟩, 2⟩]
      ⟨0.1, 0, 0⟩ (by simp)⟩

/-- Claim C5: for every sample list, starting sample, maximum magnitude
and step budget, trace_field_line returns at least the start point and at
most max_steps + 1 points. -/
theorem trace_field_line_length_bounds (field_points : List Sample)
    (start_point : Sample) (max_magnitude : ℝ) (max_steps : ℕ) :
    1 ≤ (trace_field_line field_points start_point max_magnitude max_steps).length ∧
    (trace_field_line field_points start_point max_magnitude max_steps).length ≤
      max_steps + 1 := by
  constructor
  · simp [trace_field_line]
  · simp only [trace_field_line, List.length_cons]
    exact Nat.succ_le_succ (traceLoop_length_le _ _ _ _)

/-- Claim C6 counterexample: a trace started at position (3, 0, 0), which
already exceeds the bound 2 in its x coordinate, still returns that start
point — the bound check never looks at the start, so the returned sequence
does contain a position beyond the bound. -/
theorem trace_start_escapes_bound :
    ∃ p, p ∈ trace_field_line [] ⟨⟨3, 0, 0⟩, ⟨0, 0, 1⟩, 1⟩ 1 5 ∧
      2 < |p.position.x| :=
  ⟨⟨⟨3, 0, 0⟩, 1⟩, by simp [trace_field_line, traceLoop, interpolate_field, interpLoop],
    by norm_num⟩

/-- Claim C6 (amended): trace_field_line stops stepping once a coordinate
of the advanced position exceeds the bound 2 in absolute value, and every
position appended after the start point lies within the bound in all three
coordinates; only the start point itself is returned unchecked. -/
theorem trace_field_line_tail_in_bounds (field_points : List Sample)
    (start_point : Sample) (max_magnitude : ℝ) (max_steps : ℕ) :
    ∀ p ∈ (trace_field_line field_points start_point max_magnitude max_steps).drop 1,
      |p.position.x| ≤ 2 ∧ |p.position.y| ≤ 2 ∧ |p.position.z| ≤ 2 := by
  intro p hp
  simp only [trace_field_line, List.drop_succ_cons, List.drop_zero] at hp
  exact traceLoop_in_bounds _ _ _ _ p hp

/-- Witness for the amended claim C6: a concrete one-step trace whose
appended point is within the bound. -/
theorem trace_field_line_tail_in_bounds_witness :
    (⟨⟨0.05, 0, 0⟩, 1⟩ : TracePoint) ∈
      (trace_field_line
        [⟨⟨0, 0, 0⟩, ⟨1, 0, 0⟩, 1⟩, ⟨⟨0, 0, 0⟩, ⟨0, 0, 0⟩, 0⟩]
        ⟨⟨0, 0, 0⟩, ⟨0, 0, 0⟩, 0⟩ 1 1).drop 1 ∧
    (|(⟨⟨0.05, 0, 0⟩, 1⟩ : TracePoint).position.x| ≤ 2 ∧
     |(⟨⟨0.05, 0, 0⟩, 1⟩ : TracePoint).position.y| ≤ 2 ∧
     |(⟨⟨0.05, 0, 0⟩, 1⟩ : TracePoint).position.z| ≤ 2) := by
  have hmem : (⟨⟨0.05, 0, 0⟩, 1⟩ : TracePoint) ∈
      (trace_field_line
        [⟨⟨0, 0, 0⟩, ⟨1, 0, 0⟩, 1⟩, ⟨⟨0, 0, 0⟩, ⟨0, 0, 0⟩, 0⟩]
        ⟨⟨0, 0, 0⟩, ⟨0, 0, 0⟩, 0⟩ 1 1).drop 1 := by
    rw [traceDemoEval]
    simp
  exact ⟨hmem, trace_field_line_tail_in_bounds _ _ _ _ _ hmem⟩

/-- Claim C7 counterexample: a non-empty sample list containing the
starting sample, whose starting sample has magnitude 0 (below
max_magnitude * 1e-6 for max_magnitude 1), on which the trace nevertheless
has length 2 — another sample at the same position but with magnitude 1 is
the first minimum of the nearest-sample scan, so the low start magnitude
is never the one tested. -/
theorem trace_low_magnitude_start_steps :
    ((⟨⟨0, 0, 0⟩, ⟨0, 0, 0⟩, 0⟩ : Sample) ∈
      [⟨⟨0, 0, 0⟩, ⟨1, 0, 0⟩, 1⟩, ⟨⟨0, 0, 0⟩, ⟨0, 0, 0⟩, 0⟩]) ∧
    (⟨⟨0, 0, 0⟩, ⟨0, 0, 0⟩, 0⟩ : Sample).magnitude < 1 * 1e-6 ∧
    (trace_field_line
      [⟨⟨0, 0, 0⟩, ⟨1, 0, 0⟩, 1⟩, ⟨⟨0, 0, 0⟩, ⟨0, 0, 0⟩, 0⟩]
      ⟨⟨0, 0, 0⟩, ⟨0, 0, 0⟩, 0⟩ 1 1).length ≠ 1 := by
  refine ⟨by simp, by norm_num, ?_⟩
  rw [traceDemoEval]
  simp

/-- Claim C7 (amended): whenever the nearest-sample lookup at the start
position returns a sample whose magnitude is below max_magnitude * 1e-6
(for a start sample that is the unique first-minimum at its own position,
that is the start sample itself), trace_field_line terminates immediately:
it returns exactly the start point. -/
theorem trace_interp_low_magnitude_immediate (field_points : List Sample)
    (start_point : Sample) (max_magnitude : ℝ) (max_steps : ℕ) (field : Sample)
    (hf : interpolate_field field_points start_point.position = some field)
    (hm : field.magnitude < max_magnitude * 1e-6) :
    trace_field_line field_points start_point max_magnitude max_steps =
      [⟨start_point.position, start_point.magnitude⟩] := by
  cases max_steps with
  | zero => simp [trace_field_line, traceLoop]
  | succ k =>
    simp only [trace_field_line, traceLoop, hf]
    rw [if_pos hm]

/-- Witness for the amended claim C7 at a singleton dataset whose only
sample has magnitude 0. -/
theorem trace_interp_low_magnitude_immediate_witness :
    interpolate_field [⟨⟨0, 0, 0⟩, ⟨0, 0, 0⟩, 0⟩] ⟨0, 0, 0⟩ =
      some ⟨⟨0, 0, 0⟩, ⟨0, 0, 0⟩, 0⟩ ∧
    (⟨⟨0, 0, 0⟩, ⟨0, 0, 0⟩, 0⟩ : Sample).magnitude < 1 * 1e-6 ∧
    trace_field_line [⟨⟨0, 0, 0⟩, ⟨0, 0, 0⟩, 0⟩]
      ⟨⟨0, 0, 0⟩, ⟨0, 0, 0⟩, 0⟩ 1 3 = [⟨⟨0, 0, 0⟩, 0⟩] :=
  ⟨rfl, by norm_num,
    trace_interp_low_magnitude_immediate [⟨⟨0, 0, 0⟩, ⟨0, 0, 0⟩, 0⟩]
      ⟨⟨0, 0, 0⟩, ⟨0, 0, 0⟩, 0⟩ 1 3 ⟨⟨0, 0, 0⟩, ⟨0, 0, 0⟩, 0⟩ rfl (by norm_num)⟩

/-- Claim C8 counterexample: for max_magnitude 1 the zero-magnitude color
is (0, 0.004, 1, 1), not the hue-240 pure blue (0, 0, 1, 1): the hue sweep
uses the truncated constant 0.666 (239.76 degrees), not 240/360, so the
green channel of the blue end is 1/250 instead of 0. -/
theorem magnitude_to_color_zero_not_hue240 :
    magnitude_to_color 0 1 = (0, 0.004, 1, 1.0) ∧
    magnitude_to_color 0 1 ≠ ((0 : ℝ), (0 : ℝ), (1 : ℝ), (1 : ℝ)) := by
  have h : magnitude_to_color 0 1 = (0, 0.004, 1, 1.0) := by
    rw [magnitude_to_color, if_neg (by norm_num : (1 : ℝ) ≠ 0)]
    rw [zero_div]
    norm_num [hsv_to_rgb]
  refine ⟨h, ?_⟩
  rw [h]
  intro hc
  rw [Prod.ext_iff, Prod.ext_iff] at hc
  have := hc.2.1
  norm_num at this

/-- Claim C8 (amended): magnitude_to_color(0, 0) is the fixed neutral-gray
opaque color (no division by zero); for max_magnitude M above 0,
magnitude_to_color(M, M) is the red end of the hue sweep — hue 0, rgb
(1, 0, 0) — and magnitude_to_color(0, M) is the blue end of the sweep at
hue 0.666 of a turn (239.76 degrees, slightly off pure hue-240 blue), rgb
(0, 0.004, 1); both ends at full saturation and value with alpha 1. -/
theorem magnitude_to_color_endpoints (M : ℝ) (hM : 0 < M) :
    magnitude_to_color 0 0 = (0.5, 0.5, 0.5, 1.0) ∧
    magnitude_to_color M M = (1, 0, 0, 1.0) ∧
    magnitude_to_color 0 M = (0, 0.004, 1, 1.0) := by
  refine ⟨by simp [magnitude_to_color], ?_, ?_⟩
  · rw [magnitude_to_color, if_neg (ne_of_gt hM)]
    rw [div_self (ne_of_gt hM)]
    norm_num [hsv_to_rgb]
  · rw [magnitude_to_color, if_neg (ne_of_gt hM)]
    rw [zero_div]
    norm_num [hsv_to_rgb]

/-- Witness for the amended claim C8 at max_magnitude 1. -/
theorem magnitude_to_color_endpoints_witness :
    (0 : ℝ) < 1 ∧
    (magnitude_to_color 0 0 = (0.5, 0.5, 0.5, 1.0) ∧
     magnitude_to_color 1 1 = (1, 0, 0, 1.0) ∧
     magnitude_to_color 0 1 = (0, 0.004, 1, 1.0)) :=
  ⟨by norm_num, magnitude_to_color_endpoints 1 (by norm_num)⟩

/-- Claim C9: for every well-formed parsed JSON document, the loader
yields exactly one sample per field entry, in file order, and the sample
at each index carries exactly the position components, field components
and magnitude of the corresponding source entry (exact equality in the
real-number idealization, which subsumes equality within floating-point
tolerance). -/
theorem load_field_data_json_roundtrip (data : JsonDoc) :
    (load_field_data_json data).1.length = data.field.length ∧
    ∀ (i : ℕ) (e : JsonFieldEntry), data.field.get? i = some e →
      (load_field_data_json data).1.get? i =
        some ⟨⟨e.position.x, e.position.y, e.position.z⟩,
              ⟨e.field.x, e.field.y, e.field.z⟩, e.magnitude⟩ := by
  constructor
  · simp [load_field_data_json]
  · intro i e he
    rw [List.get?_eq_getElem?] at he
    simp [load_field_data_json, List.getElem?_map, he]

/-- Witness for claim C9 at a concrete one-entry document. -/
theorem load_field_data_json_roundtrip_witness :
    (JsonDoc.mk [⟨⟨1, 2, 3⟩, ⟨4, 5, 6⟩, 7⟩] none none).field.get? 0 =
      some ⟨⟨1, 2, 3⟩, ⟨4, 5, 6⟩, 7⟩ ∧
    (load_field_data_json
      (JsonDoc.mk [⟨⟨1, 2, 3⟩, ⟨4, 5, 6⟩, 7⟩] none none)).1.get? 0 =
      some ⟨⟨1, 2, 3⟩, ⟨4, 5, 6⟩, 7⟩ :=
  ⟨rfl, (load_field_data_json_roundtrip
    (JsonDoc.mk [⟨⟨1, 2, 3⟩, ⟨4, 5, 6⟩, 7⟩] none none)).2 0
    ⟨⟨1, 2, 3⟩, ⟨4, 5, 6⟩, 7⟩ rfl⟩

/-- Claim C10: direction_to_color is total on the zero vector — mathutils
normalizes the zero-length vector to the zero vector instead of failing,
and each component then maps from the range -1..1 to 0.5, giving the
opaque mid-gray color. -/
theorem direction_to_color_zero_gray :
    direction_to_color ⟨0, 0, 0⟩ = (0.5, 0.5, 0.5, 1.0) := by
  simp [direction_to_color, Vec3.normalized, Vec3.length, Vec3.length_squared]
  norm_num
